import Mathlib

set_option maxHeartbeats 1000000

/-!
Verification development for the drawing-analysis app (`src/main.py`).

The app collects a technical drawing and a user-defined extraction schema,
sends both to a remote multimodal model in a single request, and extracts a
JSON object from the model's free-text reply with
`re.search(r'\{.*\}', result_text, re.DOTALL)` followed by `json.loads`.
The definitions below are a shallow embedding of that pipeline; machine-level
concerns (network transport, the Streamlit widget layer, wall-clock time) are
represented by the values the code actually branches on.
-/

/-- The left-brace character, written via its code point. -/
def lbrace : Char := Char.ofNat 123

/-- The right-brace character, written via its code point. -/
def rbrace : Char := Char.ofNat 125

/-- Span located by `re.search(r'\{.*\}', result_text, re.DOTALL)` at
`src/main.py` line 179.  Python regex `search` is leftmost-greedy: the match
starts at the first left brace that has some right brace after it, and the
greedy `.*` extends the match to the last right brace of the whole text. -/
def pythonSearchSpan (s : List Char) : Option (List Char) :=
  if (s.dropWhile (fun c => c != lbrace)).contains rbrace then
    some (((s.dropWhile (fun c => c != lbrace)).reverse.dropWhile
      (fun c => c != rbrace)).reverse)
  else
    none

/-- String-level wrapper for the located JSON candidate: models the
`json_match` variable of `src/main.py` line 179 (`None` or the matched span). -/
def json_match (result_text : String) : Option String :=
  (pythonSearchSpan result_text.data).map String.mk

/-- Modelled from the spec: auxiliary depth-counting scan.  `src/main.py` has
no such scan (it uses the greedy regex above); this definition follows the
spec's words in section 4.3 step 2 ("scan the raw text for the first brace and
a matching closing brace ... a depth-counting scan") and exists only to be
compared with `pythonSearchSpan`. -/
def scanBalancedAux : List Char → Nat → List Char → Option (List Char)
  | [], _, _ => none
  | c :: cs, depth, acc =>
    if c = lbrace then scanBalancedAux cs (depth + 1) (c :: acc)
    else if c = rbrace then
      if depth = 1 then some (c :: acc).reverse
      else scanBalancedAux cs (depth - 1) (c :: acc)
    else scanBalancedAux cs depth (c :: acc)

/-- Modelled from the spec: the span from the first left brace to its
depth-matching closing brace, the strategy the spec prescribes for locating
the JSON candidate.  Defined for comparison with the source's greedy regex. -/
def specBalancedSpan (s : String) : Option String :=
  (scanBalancedAux (s.data.dropWhile (fun c => c != lbrace)) 0 []).map String.mk

/-- JSON values as produced by Python `json.loads` on the model reply.
Numeric literals are modelled as integers; fractional and exponent forms are
outside this model (no claim exercises them). -/
inductive Json where
  | null : Json
  | bool : Bool → Json
  | num : Int → Json
  | str : String → Json
  | arr : List Json → Json
  | obj : List (String × Json) → Json

/-- JSON insignificant whitespace. -/
def isJsonWs (c : Char) : Bool :=
  c == ' ' || c == '\n' || c == '\t' || c == '\r'

/-- Skip insignificant whitespace. -/
def skipWs (s : List Char) : List Char := s.dropWhile isJsonWs

/-- Escape decoding inside JSON string literals (common single-character
escapes; the \uXXXX form is outside this model, no claim exercises it). -/
def jsonEscape (c : Char) : Option Char :=
  if c = '\"' then some '\"'
  else if c = '\\' then some '\\'
  else if c = '/' then some '/'
  else if c = 'n' then some '\n'
  else if c = 't' then some '\t'
  else if c = 'r' then some '\r'
  else if c = 'b' then some (Char.ofNat 8)
  else if c = 'f' then some (Char.ofNat 12)
  else none

/-- Parse the body of a JSON string literal after the opening quote,
returning the decoded string and the rest of the input. -/
def parseStrAux : List Char → List Char → Option (String × List Char)
  | [], _ => none
  | c :: cs, acc =>
    if c = '\"' then some (String.mk acc.reverse, cs)
    else if c = '\\' then
      match cs with
      | [] => none
      | e :: cs2 =>
        match jsonEscape e with
        | some d => parseStrAux cs2 (d :: acc)
        | none => none
    else parseStrAux cs (c :: acc)

/-- Decimal digits to a natural number. -/
def digitsToNat (ds : List Char) : Nat :=
  ds.foldl (fun n c => n * 10 + (c.toNat - 48)) 0

/-- Parse a JSON number (integer form; a following '.', 'e' or 'E' is
rejected because fractional literals are outside this model). -/
def parseNumber (s : List Char) : Option (Json × List Char) :=
  let core := fun (s1 : List Char) (neg : Bool) =>
    let ds := s1.takeWhile Char.isDigit
    let rest := s1.dropWhile Char.isDigit
    if ds.isEmpty then none
    else
      let n : Int := ((digitsToNat ds : Nat) : Int)
      let v : Json := Json.num (if neg then -n else n)
      match rest with
      | c :: _ => if c == '.' || c == 'e' || c == 'E' then none else some (v, rest)
      | [] => some (v, [])
  match s with
  | c :: cs => if c = '-' then core cs true else core s false
  | [] => none

/-- Insert a key/value pair with Python dict-update semantics: a repeated key
overwrites the stored value in place, keeping the key's original position. -/
def objInsert (kvs : List (String × Json)) (k : String) (v : Json) :
    List (String × Json) :=
  if kvs.any (fun p => p.1 == k) then
    kvs.map (fun p => if p.1 == k then (k, v) else p)
  else
    kvs ++ [(k, v)]

mutual

/-- Parse one JSON value.  The fuel argument bounds the recursion depth; it is
chosen large enough in `jsonLoads` that it never runs out on inputs the
parser could accept. -/
def parseValue : Nat → List Char → Option (Json × List Char)
  | 0, _ => none
  | fuel + 1, s =>
    match skipWs s with
    | [] => none
    | c :: rest =>
      if c = '\"' then (parseStrAux rest []).map (fun p => (Json.str p.1, p.2))
      else if c = lbrace then
        match skipWs rest with
        | c2 :: r2 =>
          if c2 = rbrace then some (Json.obj [], r2)
          else parseMembers fuel (c2 :: r2) []
        | [] => none
      else if c = '[' then
        match skipWs rest with
        | c2 :: r2 =>
          if c2 = ']' then some (Json.arr [], r2)
          else parseElems fuel (c2 :: r2) []
        | [] => none
      else if c = 'n' then
        match rest with
        | 'u' :: 'l' :: 'l' :: r => some (Json.null, r)
        | _ => none
      else if c = 't' then
        match rest with
        | 'r' :: 'u' :: 'e' :: r => some (Json.bool true, r)
        | _ => none
      else if c = 'f' then
        match rest with
        | 'a' :: 'l' :: 's' :: 'e' :: r => some (Json.bool false, r)
        | _ => none
      else parseNumber (c :: rest)

/-- Parse the members of a JSON object after its opening brace (first member
not yet consumed), with Python dict semantics for repeated keys. -/
def parseMembers : Nat → List Char → List (String × Json) →
    Option (Json × List Char)
  | 0, _, _ => none
  | fuel + 1, s, acc =>
    match skipWs s with
    | c :: rest =>
      if c = '\"' then
        match parseStrAux rest [] with
        | some (key, r1) =>
          match skipWs r1 with
          | ':' :: r2 =>
            match parseValue fuel r2 with
            | some (v, r3) =>
              match skipWs r3 with
              | c4 :: r4 =>
                if c4 = ',' then parseMembers fuel r4 (objInsert acc key v)
                else if c4 = rbrace then some (Json.obj (objInsert acc key v), r4)
                else none
              | [] => none
            | none => none
          | _ => none
        | none => none
      else none
    | [] => none

/-- Parse the elements of a JSON array after its opening bracket (first
element not yet consumed). -/
def parseElems : Nat → List Char → List Json → Option (Json × List Char)
  | 0, _, _ => none
  | fuel + 1, s, acc =>
    match parseValue fuel s with
    | some (v, r1) =>
      match skipWs r1 with
      | c2 :: r2 =>
        if c2 = ',' then parseElems fuel r2 (v :: acc)
        else if c2 = ']' then some (Json.arr (v :: acc).reverse, r2)
        else none
      | [] => none
    | none => none

end

/-- Model of Python `json.loads` on the located span (`src/main.py` line 182):
parse one value and require the full input to be consumed apart from trailing
whitespace (json.loads raises "Extra data" otherwise). -/
def jsonLoads (s : String) : Option Json :=
  match parseValue (s.length * 2 + 2) s.data with
  | some (v, rest) => if (skipWs rest).isEmpty then some v else none
  | none => none

/-- Top-level keys of a decoded JSON object (empty for non-objects). -/
def jsonTopKeys : Json → List String
  | Json.obj kvs => kvs.map Prod.fst
  | _ => []

/-- Whether a decoded JSON object carries the given key. -/
def jsonHasKey (j : Json) (k : String) : Bool :=
  match j with
  | Json.obj kvs => kvs.any (fun p => p.1 == k)
  | _ => false

/-- Value stored under a key of a decoded JSON object, `none` when the key is
absent (Python `data_dict.get(k)` / `k in data_dict` distinction). -/
def jsonLookup (j : Json) (k : String) : Option Json :=
  match j with
  | Json.obj kvs => (kvs.find? (fun p => p.1 == k)).map Prod.snd
  | _ => none

/-- What the results-processing block displays (`src/main.py` lines 179-222):
the decoded dict rendered as a table, the raw reply rendered in a text area
when no JSON object was located, or the generic `st.error` of the surrounding
`except` handler. -/
inductive Outcome where
  | parsed : Json → Outcome
  | rawDisplay : String → Outcome
  | errorDisplay : Outcome

/-- Model of the results-processing block (`src/main.py` lines 179-222):
locate a JSON candidate with the greedy regex; if one was located, decode it
with `json.loads` (a decoding failure is caught by the `except` handler at
line 221 and shown via `st.error`); if none was located, show the raw reply
in the "Raw AI Output" text area with no error. -/
def processResult (result_text : String) : Outcome :=
  match json_match result_text with
  | some s =>
    match jsonLoads s with
    | some v => Outcome.parsed v
    | none => Outcome.errorDisplay
  | none => Outcome.rawDisplay result_text

/-- One part of a multimodal message handed to `generate_content`:
either `Part.from_data(data=..., mime_type=...)` or a plain text prompt. -/
inductive ContentPart where
  | fromData : Option (List Nat) → Option String → ContentPart
  | text : String → ContentPart

/-- A single `model.generate_content` request: model name and content parts. -/
structure ModelCall where
  modelName : String
  contents : List ContentPart

/-- The prompt f-string of `src/main.py` lines 86-93, with the three
interpolated values made explicit arguments. -/
def buildPrompt (customer_info component_info target_instructions : String) :
    String :=
  "\n    [System Note: Region priority us-central1]\n    Context: "
    ++ customer_info ++ ", " ++ component_info
    ++ "\n    Task: Analyze the technical drawing and extract data as JSON.\n    Instructions:\n    "
    ++ target_instructions
    ++ "\n    - Return ONLY valid JSON. If missing, use null.\n    "

/-- Model of `call_gemini_vertex` (`src/main.py` lines 81-96) as the single
`generate_content` request it issues: one call whose content list holds the
binary document part and the prompt text as sibling parts. -/
def call_gemini_vertex (file_bytes : Option (List Nat))
    (mime_type : Option String)
    (target_instructions customer_info component_info : String) : ModelCall :=
  ModelCall.mk "gemini-2.5-pro"
    [ContentPart.fromData file_bytes mime_type,
     ContentPart.text (buildPrompt customer_info component_info target_instructions)]

/-- Line 96 of `src/main.py`: the reply text (`response.text`) is returned to
the caller verbatim; there is no emptiness check and no refusal error. -/
def invokerReply (response_text : String) : String := response_text

/-- Single-document pipeline: the outcome displayed for a given model reply
(the invoker's verbatim return fed to the results-processing block). -/
def analysisOutcome (response_text : String) : Outcome :=
  processResult (invokerReply response_text)

/-- One extraction row of the dynamic form: the session-state dicts
with keys "item" and "guide" (`src/main.py` lines 117-129). -/
structure Row where
  item : String
  guide : String

/-- The instruction line built for one active row at line 130. -/
def instructionLine (r : Row) : String := "- " ++ r.item ++ ": " ++ r.guide

/-- The `extracted_instructions` list built by the loop at lines 124-130:
one line per row whose item name is non-empty (Python string truthiness). -/
def extracted_instructions : List Row → List String
  | [] => []
  | r :: rs =>
    if r.item.isEmpty then extracted_instructions rs
    else instructionLine r :: extracted_instructions rs

/-- Rows whose item name is non-empty (the rows the loop includes). -/
def activeRows (rows : List Row) : List Row :=
  rows.filter (fun r => !r.item.isEmpty)

/-- The instruction text handed to the invoker: the join at line 167. -/
def target_instructions (rows : List Row) : String :=
  String.intercalate "\n" (extracted_instructions rows)

/-- The two input modes of the radio selector at line 134. -/
inductive InputType where
  | localUpload : InputType
  | googleDrive : InputType
deriving DecidableEq

/-- Python truthiness of the `file_bytes` variable: `None` and the empty
bytestring are falsy, any non-empty bytestring is truthy. -/
def bytesTruthy : Option (List Nat) → Bool
  | none => false
  | some bs => !bs.isEmpty

/-- What the Run-AI-Analysis click handler does (`src/main.py` lines
153-168): nothing when the guard fails, the "Please upload a file." warning,
or submission of `call_gemini_vertex` to the worker with the file bytes and
mime type as they stand. -/
inductive RunAction where
  | noRun : RunAction
  | warnUpload : RunAction
  | submitInvoke : Option (List Nat) → Option String → RunAction

/-- Model of the click handler's control flow at lines 153-168:
`if st.button(...) and (file_bytes or input_type == "Google Drive")` guards
the body; inside, `if not file_bytes and input_type == "Local Upload"` warns,
otherwise `call_gemini_vertex` is submitted to the executor. -/
def runAnalysisHandler (buttonPressed : Bool) (inputType : InputType)
    (file_bytes : Option (List Nat)) (mime_type : Option String) : RunAction :=
  if buttonPressed = true ∧
      (bytesTruthy file_bytes = true ∨ inputType = InputType.googleDrive) then
    if bytesTruthy file_bytes = false ∧ inputType = InputType.localUpload then
      RunAction.warnUpload
    else
      RunAction.submitInvoke file_bytes mime_type
  else
    RunAction.noRun

/-- The value sent to the progress bar at one poll iteration
(`src/main.py` line 171): `min(int(time.time() - start_time) * 2, 85)` with
`elapsed` the floor of the elapsed seconds at that iteration. -/
def pollProgress (elapsed : Nat) : Nat := min (elapsed * 2) 85

/-- The progress values emitted while the remote call is still in flight, one
per iteration of the one-second polling loop (lines 169-171), given the
elapsed whole seconds observed at each iteration. -/
def inFlightUpdates (pollElapsed : List Nat) : List Nat :=
  pollElapsed.map pollProgress

/-- The full sequence of values sent to the progress bar on the success path:
the initial `st.progress(0)` (line 157), the polling updates, then 95 after
`future.result()` returned (line 176) and 100 after processing (line 220). -/
def progressTrace (pollElapsed : List Nat) : List Nat :=
  0 :: (inFlightUpdates pollElapsed ++ [95, 100])

/-- Outcome of `st.session_state.rows.pop()` at line 122: Python `list.pop`
removes the last element, raising `IndexError` on an empty list. -/
inductive PopOutcome where
  | popped : List Row → PopOutcome
  | indexError : PopOutcome

/-- Model of the Remove-Last button body (line 122): an unguarded
`rows.pop()`, expressed through the list seen from its last element. -/
def removeLastRow (rows : List Row) : PopOutcome :=
  match rows.reverse with
  | [] => PopOutcome.indexError
  | _ :: rest => PopOutcome.popped rest.reverse

/-!
Theorems.  Helper lemmas come first; each claim is settled by one theorem
(with a witness when the theorem carries a hypothesis) and, for corrected
claims, one closed counterexample against the claim as originally stated.
-/

/-- Helper: the head of a `dropWhile` result falsifies the predicate. -/
theorem head_dropWhile_eq_some (p : Char → Bool) :
    ∀ (l : List Char) (a : Char), (l.dropWhile p).head? = some a → p a = false := by
  intro l
  induction l with
  | nil => intro a h; simp [List.dropWhile] at h
  | cons c cs ih =>
    intro a h
    rw [List.dropWhile_cons] at h
    by_cases hc : p c
    · rw [if_pos hc] at h; exact ih a h
    · rw [if_neg hc] at h
      have hca : c = a := by simpa using h
      subst hca
      simpa using hc

/-- Helper: `dropWhile` keeps at least the first predicate-falsifying element. -/
theorem dropWhile_ne_nil_of_mem (p : Char → Bool) :
    ∀ (l : List Char) (a : Char), a ∈ l → p a = false → l.dropWhile p ≠ [] := by
  intro l
  induction l with
  | nil => intro a h; simp at h
  | cons c cs ih =>
    intro a ha hpa
    rw [List.dropWhile_cons]
    rcases List.mem_cons.mp ha with h | h
    · subst h; rw [if_neg (by simp [hpa])]; simp
    · by_cases hc : p c
      · rw [if_pos hc]; exact ih a h hpa
      · rw [if_neg hc]; simp

/-- Helper for C1: extensional characterisation of the located span.  When
`pythonSearchSpan` returns a span, the input splits as `pre ++ span ++ post`
where `pre` has no left brace (the span starts at the FIRST left brace) and
`post` has no right brace (the span ends at the LAST right brace). -/
theorem pythonSearchSpan_first_to_last (sd cs : List Char)
    (h : pythonSearchSpan sd = some cs) :
    ∃ pre post : List Char,
      sd = pre ++ cs ++ post ∧
      (∀ c ∈ pre, c ≠ lbrace) ∧
      (∀ c ∈ post, c ≠ rbrace) ∧
      cs.head? = some lbrace ∧
      cs.getLast? = some rbrace := by
  unfold pythonSearchSpan at h
  by_cases hct : (sd.dropWhile (fun c => c != lbrace)).contains rbrace
  case neg => rw [if_neg hct] at h; exact absurd h (by simp)
  rw [if_pos hct] at h
  have hcs : cs = ((sd.dropWhile (fun c => c != lbrace)).reverse.dropWhile
      (fun c => c != rbrace)).reverse := (Option.some.inj h).symm
  have hmem : rbrace ∈ sd.dropWhile (fun c => c != lbrace) := by simpa using hct
  have hqrb : (fun c => c != rbrace) rbrace = false := by simp
  have h2 : cs ++ ((sd.dropWhile (fun c => c != lbrace)).reverse.takeWhile
      (fun c => c != rbrace)).reverse = sd.dropWhile (fun c => c != lbrace) := by
    rw [hcs, ← List.reverse_append, List.takeWhile_append_dropWhile, List.reverse_reverse]
  refine ⟨sd.takeWhile (fun c => c != lbrace),
      ((sd.dropWhile (fun c => c != lbrace)).reverse.takeWhile (fun c => c != rbrace)).reverse,
      ?_, ?_, ?_, ?_, ?_⟩
  · rw [List.append_assoc, h2, List.takeWhile_append_dropWhile]
  · intro c hc
    have := List.mem_takeWhile_imp hc
    simpa using this
  · intro c hc
    rw [List.mem_reverse] at hc
    have := List.mem_takeWhile_imp hc
    simpa using this
  · have htne : sd.dropWhile (fun c => c != lbrace) ≠ [] := by
      intro hnil; rw [hnil] at hmem; simp at hmem
    obtain ⟨a, t', hte⟩ : ∃ a t', sd.dropWhile (fun c => c != lbrace) = a :: t' := by
      cases hte : sd.dropWhile (fun c => c != lbrace) with
      | nil => exact absurd hte htne
      | cons a t' => exact ⟨a, t', rfl⟩
    have hpa : (fun c => c != lbrace) a = false :=
      head_dropWhile_eq_some (fun c => c != lbrace) sd a (by rw [hte]; rfl)
    have halb : a = lbrace := by simpa using hpa
    have hcsne : cs ≠ [] := by
      rw [hcs]; intro hnil
      have hnil2 : (sd.dropWhile (fun c => c != lbrace)).reverse.dropWhile
          (fun c => c != rbrace) = [] := by
        have := congrArg List.reverse hnil
        simpa using this
      exact dropWhile_ne_nil_of_mem (fun c => c != rbrace)
        (sd.dropWhile (fun c => c != lbrace)).reverse rbrace
        (by simpa using hmem) hqrb hnil2
    obtain ⟨b, cs', hcse⟩ : ∃ b cs', cs = b :: cs' := by
      cases hcse : cs with
      | nil => exact absurd hcse hcsne
      | cons b cs' => exact ⟨b, cs', rfl⟩
    have hhead : (sd.dropWhile (fun c => c != lbrace)).head? = some b := by
      rw [← h2, hcse]; rfl
    rw [hte] at hhead
    have hab : a = b := by simpa using hhead
    rw [hcse, ← hab, halb]
    rfl
  · have hrev : cs.reverse = (sd.dropWhile (fun c => c != lbrace)).reverse.dropWhile
        (fun c => c != rbrace) := by
      rw [hcs, List.reverse_reverse]
    have hne : (sd.dropWhile (fun c => c != lbrace)).reverse.dropWhile
        (fun c => c != rbrace) ≠ [] :=
      dropWhile_ne_nil_of_mem (fun c => c != rbrace)
        (sd.dropWhile (fun c => c != lbrace)).reverse rbrace
        (by simpa using hmem) hqrb
    obtain ⟨a, l', hdw⟩ : ∃ a l', (sd.dropWhile (fun c => c != lbrace)).reverse.dropWhile
        (fun c => c != rbrace) = a :: l' := by
      cases hdw : (sd.dropWhile (fun c => c != lbrace)).reverse.dropWhile
          (fun c => c != rbrace) with
      | nil => exact absurd hdw hne
      | cons a l' => exact ⟨a, l', rfl⟩
    have hqa : (fun c => c != rbrace) a = false :=
      head_dropWhile_eq_some (fun c => c != rbrace)
        (sd.dropWhile (fun c => c != lbrace)).reverse a (by rw [hdw]; rfl)
    have harb : a = rbrace := by simpa using hqa
    rw [← List.head?_reverse, hrev, hdw]
    simp [harb]

/-- C1 (counterexample): on the reply consisting of a complete JSON object
followed by a stray right brace (no code fences anywhere, and the reply as a
whole is not valid JSON, so the claim's hypothesis holds), the code's located
span is the whole reply — first left brace to LAST right brace — while the
depth-counting scan the claim describes stops at the matching brace.  The two
spans differ, so the code does not attempt to deserialize the span the claim
says it does. -/
theorem c1_counterexample :
    jsonLoads "\x7b\"a\": \"1\"\x7d \x7d" = none ∧
    json_match "\x7b\"a\": \"1\"\x7d \x7d" = some "\x7b\"a\": \"1\"\x7d \x7d" ∧
    specBalancedSpan "\x7b\"a\": \"1\"\x7d \x7d" = some "\x7b\"a\": \"1\"\x7d" ∧
    json_match "\x7b\"a\": \"1\"\x7d \x7d" ≠ specBalancedSpan "\x7b\"a\": \"1\"\x7d \x7d" ∧
    jsonLoads "\x7b\"a\": \"1\"\x7d" = some (Json.obj [("a", Json.str "1")]) := by
  refine ⟨rfl, rfl, rfl, ?_, rfl⟩
  decide

/-- C1 (amended): the parser performs no code-fence stripping and no
depth-counting scan; for every raw model reply in which a JSON candidate is
located at all, the candidate is exactly the span from the first left brace
of the reply to the last right brace of the reply (the greedy
`re.search` of line 179), and that span is what `json.loads` is attempted
on. -/
theorem c1_amended_greedy_span (raw s : String) (h : json_match raw = some s) :
    ∃ pre post : List Char,
      raw.data = pre ++ s.data ++ post ∧
      (∀ c ∈ pre, c ≠ lbrace) ∧
      (∀ c ∈ post, c ≠ rbrace) ∧
      s.data.head? = some lbrace ∧
      s.data.getLast? = some rbrace := by
  have hspan : pythonSearchSpan raw.data = some s.data := by
    unfold json_match at h
    obtain ⟨cs, h1, h2⟩ := Option.map_eq_some'.mp h
    rw [h1, ← h2]
  exact pythonSearchSpan_first_to_last raw.data s.data hspan

/-- C1 witness: the amended theorem applied to a concrete reply. -/
theorem c1_amended_greedy_span_witness :
    ∃ pre post : List Char,
      ("a\x7bc\x7d d" : String).data = pre ++ ("\x7bc\x7d" : String).data ++ post ∧
      (∀ c ∈ pre, c ≠ lbrace) ∧
      (∀ c ∈ post, c ≠ rbrace) ∧
      ("\x7bc\x7d" : String).data.head? = some lbrace ∧
      ("\x7bc\x7d" : String).data.getLast? = some rbrace :=
  c1_amended_greedy_span "a\x7bc\x7d d" "\x7bc\x7d" rfl

/-- C2 (counterexample): at the spec's own test input "not json at all" no
JSON object is located, and the code shows the raw reply in a text area —
the outcome is not an error of any kind, contradicting the claim that
parsing fails with `MalformedResponseError`. -/
theorem c2_counterexample :
    processResult "not json at all" = Outcome.rawDisplay "not json at all" ∧
    processResult "not json at all" ≠ Outcome.errorDisplay := by
  refine ⟨rfl, ?_⟩
  intro h
  rw [show processResult "not json at all" = Outcome.rawDisplay "not json at all"
    from rfl] at h
  exact Outcome.noConfusion h

/-- C2 (amended): only one of the two failure modes surfaces as an error.
When the located span fails to deserialize, `json.loads` raises and the
`except` handler shows an error; when no JSON object can be located at all,
the raw reply is displayed as-is and no error is raised. -/
theorem c2_amended_outcomes (raw : String) :
    (json_match raw = none → processResult raw = Outcome.rawDisplay raw) ∧
    (∀ s, json_match raw = some s → jsonLoads s = none →
      processResult raw = Outcome.errorDisplay) := by
  constructor
  · intro h
    simp [processResult, h]
  · intro s hs hn
    simp [processResult, hs, hn]

/-- C2 witness: the amended theorem applied at a reply with no located JSON
object and at a reply whose located span fails to deserialize. -/
theorem c2_amended_outcomes_witness :
    processResult "not json here" = Outcome.rawDisplay "not json here" ∧
    processResult "\x7b,\x7d" = Outcome.errorDisplay :=
  ⟨(c2_amended_outcomes "not json here").1 rfl,
   (c2_amended_outcomes "\x7b,\x7d").2 "\x7b,\x7d" rfl rfl⟩

/-- The spec's nested-shape example reply, used as the C3 counterexample
input: a JSON object with top-level keys "results" and "evidence". -/
def nestedReplyExample : String :=
  "\x7b\"results\":\x7b\"Part Number\":\"A1\"\x7d,\"evidence\":\x7b\"Part Number\":\"title block\"\x7d\x7d"

/-- The value `json.loads` produces for `nestedReplyExample`. -/
def nestedReplyJson : Json :=
  Json.obj
    [("results", Json.obj [("Part Number", Json.str "A1")]),
     ("evidence", Json.obj [("Part Number", Json.str "title block")])]

/-- C3 (counterexample): on the spec's own nested-shape example the code
keeps the decoded object whole — its record has top-level keys "results" and
"evidence" and no top-level "Part Number" key — instead of splitting it into
a fields mapping `Part Number -> A1` and a separate evidence mapping as the
claim states. -/
theorem c3_counterexample :
    processResult nestedReplyExample = Outcome.parsed nestedReplyJson ∧
    jsonTopKeys nestedReplyJson = ["results", "evidence"] ∧
    jsonLookup nestedReplyJson "Part Number" = none ∧
    jsonHasKey nestedReplyJson "results" = true := by
  exact ⟨rfl, rfl, rfl, rfl⟩

/-- C3 (amended): the decoded JSON object is used verbatim as the displayed
and exported record — whatever `json.loads` returns for the located span is
the record, with no `results`/`evidence` split and no other reshaping, for
nested and flat objects alike. -/
theorem c3_amended_no_split (raw : String) (j : Json)
    (h : processResult raw = Outcome.parsed j) :
    ∃ s, json_match raw = some s ∧ jsonLoads s = some j := by
  cases hm : json_match raw with
  | none =>
    simp [processResult, hm] at h
  | some s =>
    cases hl : jsonLoads s with
    | none =>
      simp [processResult, hm, hl] at h
    | some v =>
      simp [processResult, hm, hl] at h
      exact ⟨s, rfl, by rw [hl, h]⟩

/-- C3 witness: the amended theorem applied at a concrete flat reply. -/
theorem c3_amended_no_split_witness :
    ∃ s, json_match "\x7b\"a\":null\x7d" = some s ∧
      jsonLoads s = some (Json.obj [("a", Json.null)]) :=
  c3_amended_no_split "\x7b\"a\":null\x7d" (Json.obj [("a", Json.null)]) rfl

/-- Helper for C4: the instruction list is exactly the active rows mapped to
their instruction lines. -/
theorem extracted_eq_map_active (rows : List Row) :
    extracted_instructions rows = (activeRows rows).map instructionLine := by
  induction rows with
  | nil => rfl
  | cons r rs ih =>
    by_cases h : r.item.isEmpty
    · simp [extracted_instructions, activeRows, List.filter_cons, h] at *
      exact ih
    · simp [extracted_instructions, activeRows, List.filter_cons, h] at *
      exact ih

/-- C4 (confirmed): for a schema with exactly N rows having a non-empty item
name, the built instruction block has exactly N lines, one distinct line per
active row combining the row's name with its location hint, in order; no row
with an empty name contributes a line; and the construction is a pure
function of the schema and context inputs, hence deterministic. -/
theorem c4_instruction_lines (rows : List Row) (N : Nat) (ci co : String)
    (hN : (activeRows rows).length = N) :
    (extracted_instructions rows).length = N ∧
    extracted_instructions rows = (activeRows rows).map instructionLine ∧
    (∀ line ∈ extracted_instructions rows,
      ∃ r, r ∈ rows ∧ r.item.isEmpty = false ∧ line = instructionLine r) ∧
    (∀ rows2 ci2 co2, rows = rows2 → ci = ci2 → co = co2 →
      buildPrompt ci co (target_instructions rows)
        = buildPrompt ci2 co2 (target_instructions rows2)) := by
  refine ⟨?_, extracted_eq_map_active rows, ?_, ?_⟩
  · rw [extracted_eq_map_active rows, List.length_map, hN]
  · intro line hline
    rw [extracted_eq_map_active rows] at hline
    obtain ⟨r, hr, hmap⟩ := List.mem_map.mp hline
    have hr2 := List.mem_filter.mp hr
    refine ⟨r, hr2.1, ?_, hmap.symm⟩
    have := hr2.2
    simpa using this
  · intro rows2 ci2 co2 h1 h2 h3
    rw [h1, h2, h3]

/-- C4 witness: the theorem applied to a concrete two-row schema with one
active row. -/
theorem c4_instruction_lines_witness :
    (extracted_instructions [Row.mk "Part Number" "Title block", Row.mk "" "x"]).length
      = 1 :=
  (c4_instruction_lines [Row.mk "Part Number" "Title block", Row.mk "" "x"]
    1 "Major OEM" "Wire Harness" rfl).1

/-- C5 (counterexample): in Google Drive mode the click handler proceeds to
submit `call_gemini_vertex` with an absent document and no mime type — the
request is not rejected before the invocation, and no `ValidationError`
exists anywhere in the code (the `RunAction` type has no such outcome
because the handler has no such branch).  In Local Upload mode a missing
document merely makes the guard false: the handler body is skipped with no
error of any kind. -/
theorem c5_counterexample :
    runAnalysisHandler true InputType.googleDrive none none
      = RunAction.submitInvoke none none ∧
    runAnalysisHandler true InputType.localUpload none none = RunAction.noRun := by
  exact ⟨rfl, rfl⟩

/-- C5 (amended): the code performs no request validation.  The warning
branch for a missing local upload is unreachable, a missing or empty
document in Local Upload mode silently skips the handler body, mime types
are never checked by the handler (local uploads are constrained only by the
uploader's extension filter), and in Google Drive mode the handler always
submits the invocation with the document and mime type exactly as they
stand — even absent. -/
theorem c5_amended_no_validation :
    (∀ (b : Bool) (it : InputType) (fb : Option (List Nat)) (mt : Option String),
      runAnalysisHandler b it fb mt ≠ RunAction.warnUpload) ∧
    (∀ (fb : Option (List Nat)) (mt : Option String), bytesTruthy fb = false →
      runAnalysisHandler true InputType.localUpload fb mt = RunAction.noRun) ∧
    (∀ (fb : Option (List Nat)) (mt : Option String),
      runAnalysisHandler true InputType.googleDrive fb mt
        = RunAction.submitInvoke fb mt) := by
  refine ⟨?_, ?_, ?_⟩
  · intro b it fb mt
    unfold runAnalysisHandler
    split
    case isTrue hout =>
      split
      case isTrue hin =>
        rcases hin with ⟨hfb, hit⟩
        rcases hout.2 with htr | hdr
        · rw [hfb] at htr; exact absurd htr (by simp)
        · rw [hit] at hdr; exact absurd hdr (by simp)
      case isFalse hin => simp
    case isFalse hout => simp
  · intro fb mt hfb
    unfold runAnalysisHandler
    rw [if_neg]
    intro hcon
    rcases hcon.2 with htr | hdr
    · rw [hfb] at htr; exact absurd htr (by simp)
    · exact absurd hdr (by simp)
  · intro fb mt
    unfold runAnalysisHandler
    rw [if_pos ⟨rfl, Or.inr rfl⟩, if_neg]
    intro hcon
    exact absurd hcon.2 (by simp)

/-- C5 witness: the amended theorem applied at concrete requests. -/
theorem c5_amended_no_validation_witness :
    runAnalysisHandler true InputType.localUpload (some []) (some "text/plain")
      = RunAction.noRun ∧
    runAnalysisHandler true InputType.googleDrive (some [1]) (some "application/pdf")
      = RunAction.submitInvoke (some [1]) (some "application/pdf") :=
  ⟨c5_amended_no_validation.2.1 (some []) (some "text/plain") rfl,
   c5_amended_no_validation.2.2 (some [1]) (some "application/pdf")⟩

/-- C6 (counterexample): an empty remote reply is returned by the invoker
verbatim as a successful raw-text result; downstream it is shown as raw
output, not surfaced as any error — there is no `ModelRefusalError` (the
invoker has no emptiness branch at all). -/
theorem c6_counterexample :
    invokerReply "" = "" ∧
    analysisOutcome "" = Outcome.rawDisplay "" ∧
    analysisOutcome "" ≠ Outcome.errorDisplay := by
  refine ⟨rfl, rfl, ?_⟩
  intro h
  rw [show analysisOutcome "" = Outcome.rawDisplay "" from rfl] at h
  exact Outcome.noConfusion h

/-- C6 (amended): the invoker returns `response.text` verbatim with no
emptiness check and defines no refusal error; on the single-document path an
error outcome arises exactly when a JSON candidate was located but failed to
deserialize — never because the reply was empty (an empty reply takes the
raw-display path). -/
theorem c6_amended_error_source (t : String) :
    invokerReply t = t ∧
    (analysisOutcome t = Outcome.errorDisplay ↔
      ∃ s, json_match t = some s ∧ jsonLoads s = none) := by
  refine ⟨rfl, ?_, ?_⟩
  · intro h
    cases hm : json_match t with
    | none =>
      simp [analysisOutcome, invokerReply, processResult, hm] at h
    | some s =>
      cases hl : jsonLoads s with
      | none => exact ⟨s, rfl, hl⟩
      | some v =>
        simp [analysisOutcome, invokerReply, processResult, hm, hl] at h
  · rintro ⟨s, hm, hl⟩
    simp [analysisOutcome, invokerReply, processResult, hm, hl]

/-- C6 witness: the amended theorem's error condition extracted at a
concrete reply whose located span fails to deserialize. -/
theorem c6_amended_error_source_witness :
    ∃ s, json_match "\x7b!\x7d" = some s ∧ jsonLoads s = none :=
  (c6_amended_error_source "\x7b!\x7d").2.mp rfl

/-- C7 (confirmed): the invoker issues a single `generate_content` request
whose content list carries the binary document part and the instruction
prompt as sibling parts of the one multimodal message — never two separate
calls. -/
theorem c7_single_multimodal_call (fb : Option (List Nat)) (mt : Option String)
    (ti ci co : String) :
    (call_gemini_vertex fb mt ti ci co).modelName = "gemini-2.5-pro" ∧
    (call_gemini_vertex fb mt ti ci co).contents
      = [ContentPart.fromData fb mt,
         ContentPart.text (buildPrompt ci co ti)] ∧
    (call_gemini_vertex fb mt ti ci co).contents.length = 2 ∧
    ContentPart.fromData fb mt ∈ (call_gemini_vertex fb mt ti ci co).contents ∧
    ContentPart.text (buildPrompt ci co ti)
      ∈ (call_gemini_vertex fb mt ti ci co).contents := by
  refine ⟨rfl, rfl, rfl, ?_, ?_⟩
  · exact List.mem_cons_self _ _
  · exact List.mem_cons_of_mem _ (List.mem_cons_self _ _)

/-- C8 (confirmed): the record is whatever `json.loads` decoded, untouched:
a key absent from the decoded object is absent from the record (not
defaulted to null), while a key the model explicitly set to null is present
with a null value — the omitted/null distinction survives.  Concretely,
decoding a reply with an explicit null keeps the key, decoding an empty
object yields a record with no keys, and looking up a missing key yields
nothing. -/
theorem c8_no_fabricated_fields :
    (∀ (raw : String) (j : Json) (k : String),
      processResult raw = Outcome.parsed j → jsonHasKey j k = false →
        jsonLookup j k = none) ∧
    jsonLoads "\x7b\"a\": null\x7d" = some (Json.obj [("a", Json.null)]) ∧
    jsonLoads "\x7b\x7d" = some (Json.obj []) ∧
    jsonLookup (Json.obj [("a", Json.null)]) "a" = some Json.null ∧
    jsonLookup (Json.obj []) "a" = none := by
  refine ⟨?_, rfl, rfl, rfl, rfl⟩
  intro raw j k _ hk
  cases j with
  | obj kvs =>
    simp only [jsonHasKey, List.any_eq_false] at hk
    simp only [jsonLookup]
    rw [List.find?_eq_none.mpr hk]
    rfl
  | null => rfl
  | bool b => rfl
  | num n => rfl
  | str s => rfl
  | arr l => rfl

/-- C8 witness: the theorem applied at a concrete parsed reply and a key the
model omitted. -/
theorem c8_no_fabricated_fields_witness :
    jsonLookup (Json.obj [("x", Json.null)]) "missing" = none :=
  c8_no_fabricated_fields.1 "\x7b\"x\": null\x7d" (Json.obj [("x", Json.null)])
    "missing" rfl rfl

/-- C9 (confirmed): every progress value emitted while the remote call is in
flight equals `min(2 * elapsed, 85)` for the elapsed whole seconds at that
poll, hence never exceeds 85; the values 95 and 100 never occur among the
in-flight updates and appear only in the post-completion tail of the
success-path trace. -/
theorem c9_progress_bound (es : List Nat) :
    (∀ v ∈ inFlightUpdates es, v ≤ 85) ∧
    95 ∉ inFlightUpdates es ∧
    100 ∉ inFlightUpdates es ∧
    (∀ e, pollProgress e = min (2 * e) 85) ∧
    progressTrace es = 0 :: (inFlightUpdates es ++ [95, 100]) := by
  have hle : ∀ v ∈ inFlightUpdates es, v ≤ 85 := by
    intro v hv
    obtain ⟨e, _, he⟩ := List.mem_map.mp hv
    rw [← he]
    exact min_le_right _ _
  refine ⟨hle, ?_, ?_, ?_, rfl⟩
  · intro h
    have := hle 95 h
    omega
  · intro h
    have := hle 100 h
    omega
  · intro e
    unfold pollProgress
    rw [Nat.mul_comm]

/-- C9 witness: the bound applied at a concrete poll where the uncapped
value would exceed 85. -/
theorem c9_progress_bound_witness : pollProgress 50 ≤ 85 :=
  (c9_progress_bound [50]).1 (pollProgress 50) (by simp [inFlightUpdates])

/-- C10 (confirmed): the Remove-Last handler is an unguarded `rows.pop()`:
with at least one row it removes exactly the last row, and on an empty row
list it hits Python's `IndexError` from `list.pop` rather than being
rejected or ignored. -/
theorem c10_remove_last (rows : List Row) :
    (rows = [] → removeLastRow rows = PopOutcome.indexError) ∧
    (rows ≠ [] → removeLastRow rows = PopOutcome.popped rows.dropLast) := by
  constructor
  · intro h
    subst h
    rfl
  · intro h
    obtain ⟨a, rest, hr⟩ : ∃ a rest, rows.reverse = a :: rest := by
      cases hr : rows.reverse with
      | nil =>
        have : rows = [] := by
          have := congrArg List.reverse hr
          simpa using this
        exact absurd this h
      | cons a rest => exact ⟨a, rest, rfl⟩
    have hrows : rows = rest.reverse ++ [a] := by
      have := congrArg List.reverse hr
      simpa using this
    have hdrop : rows.dropLast = rest.reverse := by
      rw [hrows, List.dropLast_concat]
    unfold removeLastRow
    rw [hr, hdrop]

/-- C10 witness: the theorem applied at the empty row list and at the
default one-row session state. -/
theorem c10_remove_last_witness :
    removeLastRow [] = PopOutcome.indexError ∧
    removeLastRow [Row.mk "Part Number" "Title block"] = PopOutcome.popped [] := by
  refine ⟨(c10_remove_last []).1 rfl, ?_⟩
  have h := (c10_remove_last [Row.mk "Part Number" "Title block"]).2 (by simp)
  simpa using h
